import Mathlib

/-!
Verification development for an image-processing gRPC service.

The repository has two cores: a transform pipeline (`image_processor.py`)
that interprets a newline-delimited operation list against an in-memory
image, and a multi-asset streaming protocol (`image_server.py` sender,
`cmd_parser.py` receiver) that multiplexes one primary artifact and a
list of secondary artifacts (thumbnails) onto a single ordered frame
stream.

Modelling conventions:
- Python `bytes` buffers are `List Nat`; Python `str` is Lean `String`,
  with the string-splitting primitives re-implemented structurally over
  `List Char` (`split_nl`, `split_pred`) so that they compute by kernel
  reduction and mirror Python `str.split` semantics exactly.
- The OpenCV image primitives (`cv2.flip`, `cv2.warpAffine`,
  `cv2.cvtColor`, `cv2.resize`) are external collaborators; an image is
  modelled as the free term algebra `Img` recording exactly which
  primitive was applied with which numeric parameters.  File I/O and the
  network channel are likewise external and appear as explicit
  parameters.
- Uncaught Python exceptions (notably `IndexError` from subscripting a
  too-short list) are modelled with `Except PyErr`; `.error` means the
  Python call would propagate an exception out of the modelled function.
-/

/-- Errors a modelled Python fragment can raise without catching them. -/
inductive PyErr where
  | indexError : PyErr
deriving DecidableEq, Repr

/-- Free term algebra over the external OpenCV image primitives.  A value
records the exact sequence of primitive calls applied to the uploaded
source image together with their numeric parameters. -/
inductive Img where
  /-- the decoded uploaded image (`cv2.imread`) -/
  | src : Img
  /-- `cv2.flip(img, code)` -/
  | flip (code : Nat) (i : Img) : Img
  /-- the expanding rotation applied via `cv2.getRotationMatrix2D` /
  `cv2.warpAffine` with the given angle in degrees -/
  | rotate (angle : Int) (i : Img) : Img
  /-- `cv2.cvtColor(img, cv2.COLOR_BGR2GRAY)` -/
  | grey (i : Img) : Img
  /-- `cv2.resize(img, None, fx, fy, cv2.INTER_LINEAR)` -/
  | resizeBy (fx fy : Rat) (i : Img) : Img
  /-- `cv2.resize(img, (w, h))` -/
  | resizeTo (w h : Nat) (i : Img) : Img
deriving DecidableEq, Repr

/-- The mutable state threaded through `ImageProcessor.process_image`:
the working primary image and the append-only thumbnail list (the
`updated_imgs` dict, omitting the name fields that are only filled in
after the loop). -/
structure Imgs where
  img : Img
  thumbnail : List Img
deriving DecidableEq, Repr

/-- A status entry: numeric code paired with a human-readable message. -/
abbrev Status := Nat × String

/-- Single-quote character, used to reproduce Python repr-style messages. -/
def squote : String := String.singleton (Char.ofNat 39)

/-- Split a character list at every character satisfying `p`, keeping
empty pieces, exactly like Python `str.split(sep)` for a one-character
separator.  The result is always non-empty. -/
def split_pred (p : Char → Bool) : List Char → List (List Char)
  | [] => [[]]
  | c :: rest =>
    if p c then [] :: split_pred p rest
    else
      match split_pred p rest with
      | [] => [[c]]
      | g :: gs => (c :: g) :: gs

/-- Python `s.split("\n")` at the character level. -/
def split_nl (l : List Char) : List (List Char) :=
  split_pred (fun c => c = '\n') l

/-- Python `s.split()` (no argument): split on whitespace runs and drop
the empty pieces. -/
def split_ws (l : List Char) : List (List Char) :=
  (split_pred Char.isWhitespace l).filter (· ≠ [])

/-- Model of `ImageProcessor._cmds_to_list`: split the operation text on
newlines, then whitespace-tokenize each row. -/
def cmds_to_list (string_cmds : String) : List (List String) :=
  (split_nl string_cmds.data).map (fun row => (split_ws row).map (fun t => String.mk t))

/-- Model of Python `int(s)` restricted to the token shapes the pipeline
can meet (no interior whitespace, since tokens come from `str.split()`):
an optional sign followed by one or more decimal digits. -/
def parseNatDigits (l : List Char) : Option Nat :=
  if l = [] then none
  else if l.all Char.isDigit then some (l.foldl (fun acc c => 10 * acc + (c.toNat - 48)) 0)
  else none

/-- Model of Python `int(s)` on a whitespace-free token: `none` means
`int` raises `ValueError`. -/
def parseInt (s : String) : Option Int :=
  match s.data with
  | '-' :: rest => (parseNatDigits rest).map (fun n => -(Int.ofNat n))
  | '+' :: rest => (parseNatDigits rest).map (fun n => Int.ofNat n)
  | l => (parseNatDigits l).map (fun n => Int.ofNat n)

/-- Model of `cmd[1] = cmd[1][1:] if cmd[1].startswith("+")`: strip one
leading plus sign. -/
def strip_plus (t : String) : String :=
  match t.data with
  | '+' :: rest => String.mk rest
  | _ => t

/-- Model of `ImageProcessor._convert_to_factor` over exact rationals
(the source computes the same formula in floating point). -/
def convert_to_factor (percent : Int) : Rat :=
  if percent ≥ 0 then ((percent : Rat) / 100) + 1
  else 1 - (abs (percent : Rat)) / 100

/-- Model of `ImageProcessor._flip_image`.  A missing `cmd[1]` raises an
uncaught `IndexError` (the handler only catches `TypeError`). -/
def flip_image (imgs : Imgs) (cmd : List String) (errs : List Status) :
    Except PyErr (Imgs × List Status) :=
  match cmd.get? 1 with
  | none => .error .indexError
  | some flip_type =>
    if flip_type = "horizontal" then
      .ok ({ imgs with img := .flip 1 imgs.img }, errs)
    else if flip_type = "vertical" then
      .ok ({ imgs with img := .flip 0 imgs.img }, errs)
    else
      .ok (imgs, errs ++ [(400, "[" ++ squote ++ flip_type ++ squote ++
        "] invalid parameter. Usage: flip <horizontal/vertical>")])

/-- Model of `ImageProcessor._rotate_image`.  A missing `cmd[1]` raises
an uncaught `IndexError` (the outer handler only catches `ValueError`).
Named specs "left"/"right" map to fixed angles 90 / -90 passed directly
to the rotation primitive; numeric specs are plus-stripped, parsed,
range-checked against plus-or-minus 10000, then normalized mod 360 and
negated. -/
def rotate_image (imgs : Imgs) (cmd : List String) (errs : List Status) :
    Except PyErr (Imgs × List Status) :=
  match cmd.get? 1 with
  | none => .error .indexError
  | some degrees =>
    if degrees = "left" then
      .ok ({ imgs with img := .rotate 90 imgs.img }, errs)
    else if degrees = "right" then
      .ok ({ imgs with img := .rotate (-90) imgs.img }, errs)
    else
      match parseInt (strip_plus degrees) with
      | none =>
        .ok (imgs, errs ++ [(400, squote ++ strip_plus degrees ++ squote ++
          " is invalid rotation parameters. Only integers allowed")])
      | some d =>
        if d < -10000 then
          .ok (imgs, errs ++ [(400, "Rotation must be greater than -10001 degrees")])
        else if d > 10000 then
          .ok (imgs, errs ++ [(400, "Rotation must be less than 10001 degrees")])
        else
          .ok ({ imgs with
            img := .rotate (-1 * (if d ≥ 0 then d % 360 else -((-d) % 360))) imgs.img },
            errs)

/-- Model of `ImageProcessor._greyscale_image`. -/
def greyscale_image (imgs : Imgs) (errs : List Status) : Imgs × List Status :=
  ({ imgs with img := .grey imgs.img }, errs)

/-- Model of `ImageProcessor._resize_image`.  Here a missing `cmd[1]`
IS caught (`except Exception`) and recorded as a 400 status. -/
def resize_image (imgs : Imgs) (cmd : List String) (errs : List Status) :
    Except PyErr (Imgs × List Status) :=
  match cmd.get? 1 with
  | none => .ok (imgs, errs ++ [(400, "list index out of range")])
  | some t =>
    match parseInt t with
    | none =>
      .ok (imgs, errs ++ [(400, "invalid literal for int() with base 10: " ++
        squote ++ t ++ squote)])
    | some percent_change =>
      if percent_change > 500 then
        .ok (imgs, errs ++ [(400, "Cannot resize/scale by more than 500%")])
      else if percent_change < -95 then
        .ok (imgs, errs ++ [(400, "Cannot resize/scale by less than -95%")])
      else
        .ok ({ imgs with
          img := .resizeBy (convert_to_factor percent_change) (convert_to_factor percent_change) imgs.img },
          errs)

/-- Model of `ImageProcessor._thumbnail_image` as invoked by
`_execute_cmd` with the fixed command `(THUMBNAIL, 200, 200)`: append a
200x200 resample of the current primary image to the thumbnail list. -/
def thumbnail_image (imgs : Imgs) (errs : List Status) : Imgs × List Status :=
  ({ imgs with thumbnail := imgs.thumbnail ++ [.resizeTo 200 200 imgs.img] }, errs)

/-- Python `repr` of a list of strings, used in the unknown-operation
message `f"invalid function {cmd}"`. -/
def pyReprList (l : List String) : String :=
  "[" ++ String.intercalate ", " (l.map (fun s => squote ++ s ++ squote)) ++ "]"

/-- Model of `ImageProcessor._execute_cmd`.  Subscripting `cmd[0]` on a
zero-token row raises an uncaught `IndexError`. -/
def execute_cmd (imgs : Imgs) (cmd : List String) (errs : List Status) :
    Except PyErr (Imgs × List Status) :=
  match cmd.head? with
  | none => .error .indexError
  | some c0 =>
    if c0 = "flip" then flip_image imgs cmd errs
    else if c0 = "rotate" then rotate_image imgs cmd errs
    else if c0 = "greyscale" then .ok (greyscale_image imgs errs)
    else if c0 = "resize" then resize_image imgs cmd errs
    else if c0 = "thumbnail" then .ok (thumbnail_image imgs errs)
    else .ok (imgs, errs ++ [(400, "invalid function " ++ pyReprList cmd)])

/-- The command loop of `ImageProcessor.process_image`. -/
def run_cmds (imgs : Imgs) (errs : List Status) :
    List (List String) → Except PyErr (Imgs × List Status)
  | [] => .ok (imgs, errs)
  | cmd :: rest =>
    match execute_cmd imgs cmd errs with
    | .ok (imgs2, errs2) => run_cmds imgs2 errs2 rest
    | .error e => .error e

/-- Model of `ImageProcessor.process_image` (which the server invokes on
the decoded upload): run every parsed row, then append the single
success status when no error was recorded.  Returns the final primary
image, the thumbnail list and the status list; writing them to disk is
external. -/
def process_image_proc (string_cmds : String) :
    Except PyErr (Img × List Img × List Status) :=
  match run_cmds ⟨Img.src, []⟩ [] (cmds_to_list string_cmds) with
  | .error e => .error e
  | .ok (imgs, errs) =>
    let errs2 := if errs.length = 0 then errs ++ [(200, "Sucessfully processed image")] else errs
    .ok (imgs.img, imgs.thumbnail, errs2)

/-! ## The multi-asset streaming protocol -/

/-- Wire chunk size: 64 KiB (`CHUNK_SIZE` in `image_server.py`). -/
def CHUNK_SIZE : Nat := 64 * 1024

/-- Sentinel asset name marking a control frame. -/
def NEW_FILE_INCOMING : String := "NEW_FILE_INCOMING"

/-- One `ImageReturn` protobuf message as yielded by the server. -/
structure Frame where
  image_type : String
  img_chunk_data : List Nat
  filename : String
  file_num : Nat
  errors : String
deriving DecidableEq, Repr

/-- A named byte buffer: the on-disk artifact a filename refers to when
the sender opens and streams it. -/
structure Artifact where
  name : String
  data : List Nat
deriving DecidableEq, Repr

/-- Fuel-indexed chunk splitter; `fuel` at least the buffer length makes
it total. -/
def chunksOfAux : Nat → List Nat → List (List Nat)
  | _, [] => []
  | 0, _ => []
  | fuel + 1, b => b.take CHUNK_SIZE :: chunksOfAux fuel (b.drop CHUNK_SIZE)

/-- Model of `iter(lambda: f.read(CHUNK_SIZE), b"")`: split a byte
buffer into consecutive chunks of at most `CHUNK_SIZE` bytes; an empty
buffer yields no chunks. -/
def chunksOf (b : List Nat) : List (List Nat) :=
  chunksOfAux b.length b

/-- Model of `ImageProcessorServicer.error_string`: serialize the status
list by appending `"<code>, <message>\n"` for each entry. -/
def error_string (errs : List Status) : String :=
  errs.foldl (fun error_msg err => error_msg ++ Nat.repr err.1 ++ ", " ++ err.2 ++ "\n") ""

/-- Model of `ImageProcessorServicer.transmit_img`: stream the primary
artifact's chunks (slot 0), one control frame, then each thumbnail's
chunks at its slot index with a control frame between consecutive
thumbnails (and none after the last).  Every frame carries the same
serialized status text. -/
def transmit_img (img : Artifact) (thumbnails : List Artifact) (errs : List Status)
    (type : String) : List Frame :=
  let err_msg := error_string errs
  ((chunksOf img.data).map (fun chunk =>
      { image_type := type, img_chunk_data := chunk, filename := img.name,
        file_num := 0, errors := err_msg }))
  ++ [{ image_type := "", img_chunk_data := [], filename := NEW_FILE_INCOMING,
        file_num := 0, errors := err_msg }]
  ++ (if thumbnails.length ≠ 0 then
        ((List.range thumbnails.length).map (fun i =>
          ((chunksOf (thumbnails.getD i ⟨"", []⟩).data).map (fun chunk =>
            { image_type := type, img_chunk_data := chunk,
              filename := (thumbnails.getD i ⟨"", []⟩).name,
              file_num := i, errors := err_msg }))
          ++ (if i < thumbnails.length - 1 then
                [{ image_type := "", img_chunk_data := [], filename := NEW_FILE_INCOMING,
                   file_num := i + 1, errors := err_msg }]
              else []))).flatten
      else [])

/-- Receiver-side reconstruction state: the local variables of the frame
loop in `CmdParser.process_image`. -/
structure RecvState where
  encountered_thumbnail : Bool
  new_img : List Nat
  new_img_name : String
  new_thumbnail : List (List Nat)
  new_thumbnail_name : List String
  error_msg : String
  file_num : Nat
deriving DecidableEq, Repr

/-- The state before the first frame is processed. -/
def initRecvState : RecvState :=
  { encountered_thumbnail := false, new_img := [], new_img_name := "",
    new_thumbnail := [], new_thumbnail_name := [], error_msg := "", file_num := 0 }

/-- One iteration of the receiver loop in `CmdParser.process_image`.
`.error` models the uncaught `IndexError` raised by
`new_thumbnail_name[file_num] = ...` when the slot was never opened by
a preceding control frame. -/
def demux_step (s : RecvState) (f : Frame) : Except PyErr RecvState :=
  let s1 := { s with error_msg := f.errors, file_num := f.file_num }
  if f.filename = NEW_FILE_INCOMING ∧ s1.encountered_thumbnail = false then
    .ok { s1 with encountered_thumbnail := true,
                  new_thumbnail := s1.new_thumbnail ++ [[]],
                  new_thumbnail_name := s1.new_thumbnail_name ++ [""] }
  else if f.filename = NEW_FILE_INCOMING then
    .ok { s1 with new_thumbnail := s1.new_thumbnail ++ [[]],
                  new_thumbnail_name := s1.new_thumbnail_name ++ [""] }
  else if s1.encountered_thumbnail = false then
    .ok { s1 with new_img_name := f.filename,
                  new_img := s1.new_img ++ f.img_chunk_data }
  else if f.file_num < s1.new_thumbnail_name.length ∧ f.file_num < s1.new_thumbnail.length then
    .ok { s1 with
      new_thumbnail_name := s1.new_thumbnail_name.set f.file_num f.filename,
      new_thumbnail := s1.new_thumbnail.set f.file_num
        ((s1.new_thumbnail.getD f.file_num []) ++ f.img_chunk_data) }
  else .error .indexError

/-- The receiver loop of `CmdParser.process_image` over a whole frame
sequence. -/
def demux_loop (s : RecvState) : List Frame → Except PyErr RecvState
  | [] => .ok s
  | f :: fs =>
    match demux_step s f with
    | .ok s2 => demux_loop s2 fs
    | .error e => .error e

/-- Model of `CmdParser.convert_to_list`: split the serialized status
text on newlines and drop the trailing empty piece the final newline
produces. -/
def convert_to_list (str_err : String) : List String :=
  if str_err = "" then []
  else
    let error_list := (split_nl str_err.data).map (fun l => String.mk l)
    if error_list.getLast? = some "" then error_list.dropLast else error_list

/-- The client response dict: `responses` is either the list built by
`convert_to_list` or a top-level failure value (the caught `ValueError`
or the literal 4xx/5xx string). -/
inductive RespVal where
  | failure (s : String) : RespVal
  | ok_list (l : List String) : RespVal
deriving DecidableEq, Repr

/-- The dict returned by `CmdParser.process_image`: `none` models the
Python `None` failure indicator. -/
structure Response where
  img : Option String
  thumbnail : Option (List String)
  responses : RespVal
deriving DecidableEq, Repr

/-- Model of `CmdParser.process_image`.  External conditions appear as
parameters: `supported` is `_is_supported_img()` (a pure check of the
source filename), `fileExists` is the filesystem check in
`_check_file_exists`, and `transport` is `none` when the gRPC channel
itself fails (connection error) or `some frames` with the frame
sequence the server streamed back. -/
def client_process_image (supported fileExists : Bool)
    (transport : Option (List Frame)) : Response :=
  if supported then
    if fileExists = false then
      { img := none, thumbnail := none, responses := .failure "404, file does not exist" }
    else
      match transport with
      | none =>
        { img := none, thumbnail := none,
          responses := .failure "500, Unable to connect to server" }
      | some frames =>
        match demux_loop initRecvState frames with
        | .error _ =>
          { img := none, thumbnail := none,
            responses := .failure "500, Unable to connect to server" }
        | .ok s =>
          { img := some ("client_" ++ s.new_img_name),
            thumbnail := some (s.new_thumbnail_name.map (fun n => "client_" ++ n)),
            responses := .ok_list (convert_to_list s.error_msg) }
  else
    { img := some "", thumbnail := some [],
      responses := .failure "400, invalid file type/missing extension" }

/-! ## Helper lemmas about the pipeline -/

theorem parseNatDigits_some {l : List Char} {n : Nat}
    (h : parseNatDigits l = some n) : l ≠ [] ∧ l.all Char.isDigit = true := by
  unfold parseNatDigits at h
  split at h
  · exact absurd h (by simp)
  · split at h
    · rename_i h1 h2
      exact ⟨h1, h2⟩
    · exact absurd h (by simp)

theorem parseInt_strip_plus {u : String} {d : Int} (h : parseInt u = some d) :
    parseInt (strip_plus u) = some d := by
  unfold parseInt at h
  unfold strip_plus
  split
  · rename_i rest hu
    rw [hu] at h
    obtain ⟨n, hn, hd⟩ := Option.map_eq_some'.mp h
    obtain ⟨hne, hdig⟩ := parseNatDigits_some hn
    match rest, hne with
    | c :: r, _ =>
      have hc : c.isDigit = true := by
        simp only [List.all_cons, Bool.and_eq_true] at hdig
        exact hdig.1
      show (match (c :: r) with
        | '-' :: rest => (parseNatDigits rest).map (fun n => -(Int.ofNat n))
        | '+' :: rest => (parseNatDigits rest).map (fun n => Int.ofNat n)
        | l => (parseNatDigits l).map (fun n => Int.ofNat n)) = some d
      split
      · rename_i heq
        cases heq
        exact absurd hc (by decide)
      · rename_i heq
        cases heq
        exact absurd hc (by decide)
      · rw [hn, Option.map_some', hd]
  · rename_i hnp
    unfold parseInt
    exact h

theorem parseInt_ne_left {u : String} {d : Int} (h : parseInt u = some d) : u ≠ "left" := by
  rintro rfl
  simp [parseInt, parseNatDigits] at h

theorem parseInt_ne_right {u : String} {d : Int} (h : parseInt u = some d) : u ≠ "right" := by
  rintro rfl
  simp [parseInt, parseNatDigits] at h

theorem strip_plus_append (u : String) : strip_plus ("+" ++ u) = u := by
  unfold strip_plus
  show (match '+' :: u.data with
    | '+' :: rest => String.mk rest
    | _ => ("+" ++ u : String)) = u
  simp

theorem plus_append_ne_left (u : String) : "+" ++ u ≠ "left" := by
  intro h
  have h2 : ('+' :: u.data) = "left".data := congrArg String.data h
  simp at h2

theorem plus_append_ne_right (u : String) : "+" ++ u ≠ "right" := by
  intro h
  have h2 : ('+' :: u.data) = "right".data := congrArg String.data h
  simp at h2

theorem execute_cmd_rotate (imgs : Imgs) (t : String) (rest : List String)
    (errs : List Status) :
    execute_cmd imgs ("rotate" :: t :: rest) errs = rotate_image imgs ("rotate" :: t :: rest) errs := by
  simp [execute_cmd]

theorem rotate_image_numeric (imgs : Imgs) (errs : List Status) (rest : List String)
    (t : String) (d : Int) (h1 : t ≠ "left") (h2 : t ≠ "right")
    (h3 : parseInt (strip_plus t) = some d) :
    rotate_image imgs ("rotate" :: t :: rest) errs =
      (if d < -10000 then
        .ok (imgs, errs ++ [(400, "Rotation must be greater than -10001 degrees")])
      else if d > 10000 then
        .ok (imgs, errs ++ [(400, "Rotation must be less than 10001 degrees")])
      else
        .ok ({ imgs with img := .rotate (-1 * (if d ≥ 0 then d % 360 else -((-d) % 360))) imgs.img }, errs)) := by
  simp [rotate_image, h1, h2, h3]

/-! ## C5: rotate parameter contract -/

/-- C5: Rotate parameter contract.  "left" passes +90 and "right" passes
-90 directly to the rotation primitive; a leading plus sign on a numeric
spec is stripped before integer parsing (so the plus-prefixed row behaves
exactly like the unprefixed one); a non-integer non-named spec appends a
400 status without mutating the image; an integer out of [-10000, 10000]
appends a 400 status without mutating; an in-range integer d rotates by
-(d % 360) when d ≥ 0 and by (-d) % 360 when d < 0. -/
theorem C5_rotate_parameter_contract :
    (∀ (imgs : Imgs) (errs : List Status) (rest : List String),
      execute_cmd imgs ("rotate" :: "left" :: rest) errs =
        .ok ({ imgs with img := .rotate 90 imgs.img }, errs)) ∧
    (∀ (imgs : Imgs) (errs : List Status) (rest : List String),
      execute_cmd imgs ("rotate" :: "right" :: rest) errs =
        .ok ({ imgs with img := .rotate (-90) imgs.img }, errs)) ∧
    (∀ (imgs : Imgs) (errs : List Status) (rest : List String) (u : String) (d : Int),
      parseInt u = some d →
      execute_cmd imgs ("rotate" :: ("+" ++ u) :: rest) errs =
        execute_cmd imgs ("rotate" :: u :: rest) errs) ∧
    (∀ (imgs : Imgs) (errs : List Status) (rest : List String) (t : String),
      t ≠ "left" → t ≠ "right" → parseInt (strip_plus t) = none →
      ∃ m, execute_cmd imgs ("rotate" :: t :: rest) errs = .ok (imgs, errs ++ [(400, m)])) ∧
    (∀ (imgs : Imgs) (errs : List Status) (rest : List String) (t : String) (d : Int),
      t ≠ "left" → t ≠ "right" → parseInt (strip_plus t) = some d →
      (d < -10000 ∨ d > 10000) →
      ∃ m, execute_cmd imgs ("rotate" :: t :: rest) errs = .ok (imgs, errs ++ [(400, m)])) ∧
    (∀ (imgs : Imgs) (errs : List Status) (rest : List String) (t : String) (d : Int),
      t ≠ "left" → t ≠ "right" → parseInt (strip_plus t) = some d →
      -10000 ≤ d → d ≤ 10000 →
      execute_cmd imgs ("rotate" :: t :: rest) errs =
        .ok ({ imgs with
          img := .rotate (if d ≥ 0 then -(d % 360) else (-d) % 360) imgs.img }, errs)) := by
  refine ⟨?_, ?_, ?_, ?_, ?_, ?_⟩
  · intro imgs errs rest
    simp [execute_cmd, rotate_image]
  · intro imgs errs rest
    simp [execute_cmd, rotate_image]
  · intro imgs errs rest u d h
    rw [execute_cmd_rotate, execute_cmd_rotate]
    have hs : parseInt (strip_plus ("+" ++ u)) = some d := by
      rw [strip_plus_append]; exact h
    rw [rotate_image_numeric imgs errs rest _ d (plus_append_ne_left u)
      (plus_append_ne_right u) hs]
    rw [rotate_image_numeric imgs errs rest u d (parseInt_ne_left h)
      (parseInt_ne_right h) (parseInt_strip_plus h)]
  · intro imgs errs rest t h1 h2 h3
    refine ⟨squote ++ strip_plus t ++ squote ++
      " is invalid rotation parameters. Only integers allowed", ?_⟩
    rw [execute_cmd_rotate]
    simp [rotate_image, h1, h2, h3]
  · intro imgs errs rest t d h1 h2 h3 hrange
    rw [execute_cmd_rotate, rotate_image_numeric imgs errs rest t d h1 h2 h3]
    rcases hrange with h | h
    · exact ⟨"Rotation must be greater than -10001 degrees", by rw [if_pos h]⟩
    · refine ⟨"Rotation must be less than 10001 degrees", ?_⟩
      rw [if_neg (by omega), if_pos h]
  · intro imgs errs rest t d h1 h2 h3 hlo hhi
    rw [execute_cmd_rotate, rotate_image_numeric imgs errs rest t d h1 h2 h3,
      if_neg (by omega), if_neg (by omega)]
    congr 2
    split
    · ring_nf
    · ring_nf

/-- Concrete instantiation of `C5_rotate_parameter_contract`: the row
`rotate +40` rotates by -40 degrees. -/
theorem C5_rotate_parameter_contract_witness :
    execute_cmd ⟨Img.src, []⟩ ["rotate", "+40"] [] =
      .ok (⟨Img.rotate (-40) Img.src, []⟩, []) := by
  have h := C5_rotate_parameter_contract.2.2.2.2.2 ⟨Img.src, []⟩ [] [] "+40" 40
    (by decide) (by decide) (by decide) (by omega) (by omega)
  rw [h]
  norm_num

/-! ## C6: resize contract -/

theorem execute_cmd_resize (imgs : Imgs) (t : String) (rest : List String)
    (errs : List Status) :
    execute_cmd imgs ("resize" :: t :: rest) errs =
      resize_image imgs ("resize" :: t :: rest) errs := by
  simp [execute_cmd]

/-- The scaling factor exactly as the specification words it: 1 + p/100
for non-negative p and 1 - |p|/100 for negative p. -/
def resize_factor_claim (p : Int) : Rat :=
  if p ≥ 0 then 1 + (p : Rat) / 100 else 1 - (abs (p : Rat)) / 100

/-- C6: Resize contract.  An in-range integer percent p scales both axes
uniformly by 1 + p/100 when p ≥ 0 and 1 - |p|/100 when p < 0 (p = 0
giving factor exactly 1); an out-of-range percent appends a 400 status
and leaves the image (hence its dimensions) unchanged. -/
theorem C6_resize_contract :
    (∀ (imgs : Imgs) (errs : List Status) (rest : List String) (t : String) (p : Int),
      parseInt t = some p → -95 ≤ p → p ≤ 500 →
      execute_cmd imgs ("resize" :: t :: rest) errs =
        .ok ({ imgs with
          img := Img.resizeBy (resize_factor_claim p) (resize_factor_claim p) imgs.img },
          errs)) ∧
    (resize_factor_claim 0 = 1) ∧
    (∀ (imgs : Imgs) (errs : List Status) (rest : List String) (t : String) (p : Int),
      parseInt t = some p → (p < -95 ∨ p > 500) →
      ∃ m, execute_cmd imgs ("resize" :: t :: rest) errs =
        .ok (imgs, errs ++ [(400, m)])) := by
  have hfac : ∀ p : Int, convert_to_factor p = resize_factor_claim p := by
    intro p
    unfold convert_to_factor resize_factor_claim
    split
    · ring_nf
    · rfl
  refine ⟨?_, ?_, ?_⟩
  · intro imgs errs rest t p hp hlo hhi
    rw [execute_cmd_resize]
    simp only [resize_image, List.get?_cons_succ, List.get?_cons_zero, hp]
    rw [if_neg (by omega), if_neg (by omega), hfac]
  · norm_num [resize_factor_claim]
  · intro imgs errs rest t p hp hrange
    rw [execute_cmd_resize]
    simp only [resize_image, List.get?_cons_succ, List.get?_cons_zero, hp]
    rcases hrange with h | h
    · exact ⟨"Cannot resize/scale by less than -95%",
        by rw [if_neg (by omega), if_pos h]⟩
    · exact ⟨"Cannot resize/scale by more than 500%", by rw [if_pos h]⟩

/-- Concrete instantiation of `C6_resize_contract`: `resize 10` scales
both axes by the factor 11/10. -/
theorem C6_resize_contract_witness :
    execute_cmd ⟨Img.src, []⟩ ["resize", "10"] [] =
      .ok (⟨Img.resizeBy (11 / 10) (11 / 10) Img.src, []⟩, []) := by
  have h := C6_resize_contract.1 ⟨Img.src, []⟩ [] [] "10" 10
    (by decide) (by omega) (by omega)
  rw [h]
  norm_num [resize_factor_claim]

/-! ## C7: thumbnail contract -/

theorem execute_cmd_thumb (imgs : Imgs) (cmd : List String) (errs : List Status)
    (out : Imgs × List Status) (h : execute_cmd imgs cmd errs = .ok out) :
    out.1.thumbnail = if cmd.head? = some "thumbnail"
      then imgs.thumbnail ++ [Img.resizeTo 200 200 imgs.img] else imgs.thumbnail := by
  unfold execute_cmd flip_image rotate_image greyscale_image resize_image thumbnail_image at h
  repeat' split at h
  all_goals injection h
  all_goals rename_i aeq
  all_goals subst aeq
  all_goals simp_all

theorem run_cmds_thumb_count (rows : List (List String)) :
    ∀ (imgs : Imgs) (errs : List Status) (out : Imgs × List Status),
    run_cmds imgs errs rows = .ok out →
    out.1.thumbnail.length =
      imgs.thumbnail.length + rows.countP (fun r => r.head? == some "thumbnail") := by
  induction rows with
  | nil =>
    intro imgs errs out h
    injection h with h2
    subst h2
    simp
  | cons row rest ih =>
    intro imgs errs out h
    unfold run_cmds at h
    cases hst : execute_cmd imgs row errs with
    | error e =>
      rw [hst] at h
      exact absurd h (by simp)
    | ok st =>
      obtain ⟨i2, e2⟩ := st
      rw [hst] at h
      have hrec := ih i2 e2 out h
      have ht := execute_cmd_thumb imgs row errs (i2, e2) hst
      rw [List.countP_cons]
      by_cases hh : row.head? = some "thumbnail"
      · rw [if_pos hh] at ht
        simp only [hh] at *
        rw [hrec, ht]
        simp [Nat.add_comm, Nat.add_assoc]
      · rw [if_neg hh] at ht
        have : (row.head? == some ("thumbnail" : String)) = false := by
          simp [hh]
        rw [hrec, ht, this]
        simp

/-- C7: Thumbnail contract.  A `thumbnail` row appends exactly one
200x200 resample of the current primary image state to the thumbnail
list, mutating neither the primary image nor the statuses; consequently
a completed run produces exactly one secondary artifact per `thumbnail`
row, in command order. -/
theorem C7_thumbnail_contract :
    (∀ (imgs : Imgs) (errs : List Status) (rest : List String),
      execute_cmd imgs ("thumbnail" :: rest) errs =
        .ok ({ imgs with thumbnail := imgs.thumbnail ++ [Img.resizeTo 200 200 imgs.img] },
          errs)) ∧
    (∀ (rows : List (List String)) (imgs : Imgs) (errs : List Status)
        (out : Imgs × List Status),
      run_cmds imgs errs rows = .ok out →
      out.1.thumbnail.length =
        imgs.thumbnail.length + rows.countP (fun r => r.head? == some "thumbnail")) := by
  constructor
  · intro imgs errs rest
    simp [execute_cmd, thumbnail_image]
  · exact fun rows imgs errs out h => run_cmds_thumb_count rows imgs errs out h

/-- Concrete instantiation of `C7_thumbnail_contract`: two `thumbnail`
rows in an op list of three rows yield exactly two thumbnails. -/
theorem C7_thumbnail_contract_witness :
    ((⟨Img.grey Img.src,
        [Img.resizeTo 200 200 Img.src, Img.resizeTo 200 200 (Img.grey Img.src)]⟩ : Imgs),
      ([] : List Status)).1.thumbnail.length =
      (⟨Img.src, []⟩ : Imgs).thumbnail.length +
        [["thumbnail"], ["greyscale"], ["thumbnail"]].countP
          (fun r => r.head? == some "thumbnail") :=
  C7_thumbnail_contract.2 [["thumbnail"], ["greyscale"], ["thumbnail"]] ⟨Img.src, []⟩ []
    (⟨Img.grey Img.src,
      [Img.resizeTo 200 200 Img.src, Img.resizeTo 200 200 (Img.grey Img.src)]⟩, [])
    (by rfl)

/-! ## C2: pipeline totality -/

theorem flip_image_ok (imgs : Imgs) (errs : List Status) (c0 a : String)
    (rest : List String) :
    ∃ out, flip_image imgs (c0 :: a :: rest) errs = .ok out := by
  unfold flip_image
  simp only [List.get?_cons_succ, List.get?_cons_zero]
  split
  · exact ⟨_, rfl⟩
  · split
    · exact ⟨_, rfl⟩
    · exact ⟨_, rfl⟩

theorem rotate_image_ok (imgs : Imgs) (errs : List Status) (c0 a : String)
    (rest : List String) :
    ∃ out, rotate_image imgs (c0 :: a :: rest) errs = .ok out := by
  unfold rotate_image
  simp only [List.get?_cons_succ, List.get?_cons_zero]
  split
  · exact ⟨_, rfl⟩
  · split
    · exact ⟨_, rfl⟩
    · split
      · exact ⟨_, rfl⟩
      · split
        · exact ⟨_, rfl⟩
        · split
          · exact ⟨_, rfl⟩
          · exact ⟨_, rfl⟩

theorem resize_image_ok (imgs : Imgs) (errs : List Status) (cmd : List String) :
    ∃ out, resize_image imgs cmd errs = .ok out := by
  unfold resize_image
  split
  · exact ⟨_, rfl⟩
  · split
    · exact ⟨_, rfl⟩
    · split
      · exact ⟨_, rfl⟩
      · split
        · exact ⟨_, rfl⟩
        · exact ⟨_, rfl⟩

theorem execute_cmd_total (imgs : Imgs) (errs : List Status) (cmd : List String)
    (h0 : cmd ≠ [])
    (hf : cmd.head? = some "flip" → 2 ≤ cmd.length)
    (hr : cmd.head? = some "rotate" → 2 ≤ cmd.length) :
    ∃ out, execute_cmd imgs cmd errs = .ok out := by
  match cmd, h0 with
  | c0 :: rest, _ =>
    simp only [execute_cmd, List.head?_cons]
    by_cases h1 : c0 = "flip"
    · rw [if_pos h1]
      subst h1
      have hlen := hf rfl
      cases rest with
      | nil => simp at hlen
      | cons a rest2 => exact flip_image_ok imgs errs _ a rest2
    · rw [if_neg h1]
      by_cases h2 : c0 = "rotate"
      · rw [if_pos h2]
        subst h2
        have hlen := hr rfl
        cases rest with
        | nil => simp at hlen
        | cons a rest2 => exact rotate_image_ok imgs errs _ a rest2
      · rw [if_neg h2]
        by_cases h3 : c0 = "greyscale"
        · rw [if_pos h3]
          exact ⟨_, rfl⟩
        · rw [if_neg h3]
          by_cases h4 : c0 = "resize"
          · rw [if_pos h4]
            exact resize_image_ok imgs errs _
          · rw [if_neg h4]
            by_cases h5 : c0 = "thumbnail"
            · rw [if_pos h5]
              exact ⟨_, rfl⟩
            · rw [if_neg h5]
              exact ⟨_, rfl⟩

/-- A well-formed row predicate: non-blank, and `flip`/`rotate` rows
carry their argument. -/
def row_ok (row : List String) : Prop :=
  row ≠ [] ∧ (row.head? = some "flip" → 2 ≤ row.length) ∧
    (row.head? = some "rotate" → 2 ≤ row.length)

instance (row : List String) : Decidable (row_ok row) := by
  unfold row_ok
  infer_instance

theorem run_cmds_total (rows : List (List String)) :
    ∀ (imgs : Imgs) (errs : List Status),
    (∀ row ∈ rows, row_ok row) →
    ∃ out, run_cmds imgs errs rows = .ok out := by
  induction rows with
  | nil => exact fun imgs errs _ => ⟨_, rfl⟩
  | cons row rest ih =>
    intro imgs errs hall
    obtain ⟨h1, h2, h3⟩ := hall row (by simp)
    obtain ⟨⟨i2, e2⟩, hout⟩ := execute_cmd_total imgs errs row h1 h2 h3
    obtain ⟨out2, hout2⟩ := ih i2 e2 (fun r hrr => hall r (by simp [hrr]))
    refine ⟨out2, ?_⟩
    unfold run_cmds
    rw [hout]
    exact hout2

theorem execute_cmd_effect (imgs : Imgs) (cmd : List String) (errs : List Status)
    (out : Imgs × List Status) (h : execute_cmd imgs cmd errs = .ok out) :
    (out.1 = imgs ∧ ∃ m, out.2 = errs ++ [(400, m)]) ∨ out.2 = errs := by
  unfold execute_cmd flip_image rotate_image greyscale_image resize_image thumbnail_image at h
  repeat' split at h
  all_goals injection h
  all_goals rename_i aeq
  all_goals subst aeq
  all_goals (first | (right; rfl) | (left; exact ⟨rfl, _, rfl⟩))

/-- C2 (amended): the pipeline executes every row to completion provided
every row is non-blank and every `flip`/`rotate` row carries its
argument; and a row that fails never mutates the image and surfaces
exactly one 400 status entry, after which execution continues (the
pipeline folds on, as `run_cmds_total` shows).  A blank row, or a `flip`
or `rotate` row without its argument, instead raises an uncaught
`IndexError` that aborts the whole run (see the counterexample). -/
theorem C2_pipeline_totality_amended :
    (∀ (text : String),
      (∀ row ∈ cmds_to_list text, row_ok row) →
      ∃ r, process_image_proc text = .ok r) ∧
    (∀ (imgs : Imgs) (cmd : List String) (errs : List Status) (out : Imgs × List Status),
      execute_cmd imgs cmd errs = .ok out →
      (out.1 = imgs ∧ ∃ m, out.2 = errs ++ [(400, m)]) ∨ out.2 = errs) := by
  constructor
  · intro text hall
    obtain ⟨⟨imgs2, errs2⟩, hout⟩ := run_cmds_total (cmds_to_list text) ⟨Img.src, []⟩ [] hall
    refine ⟨(imgs2.img, imgs2.thumbnail,
      if errs2.length = 0 then errs2 ++ [(200, "Sucessfully processed image")] else errs2), ?_⟩
    unfold process_image_proc
    rw [hout]
  · exact execute_cmd_effect

/-- C2 counterexample: the empty operation text parses to a single
zero-token row, and the pipeline aborts with an uncaught `IndexError`
instead of recording a 400 status entry and completing. -/
theorem C2_pipeline_totality_counterexample :
    process_image_proc "" = .error .indexError := by rfl

/-- Concrete instantiation of `C2_pipeline_totality_amended`: a two-row
text with one failing row still runs to completion. -/
theorem C2_pipeline_totality_witness :
    ∃ r, process_image_proc "flip vertical\nhover" = .ok r :=
  C2_pipeline_totality_amended.1 "flip vertical\nhover" (by decide)

/-! ## C8: status-list completion invariant -/

theorem run_cmds_errs_extend (rows : List (List String)) :
    ∀ (imgs : Imgs) (errs : List Status) (out : Imgs × List Status),
    run_cmds imgs errs rows = .ok out →
    ∃ δ, out.2 = errs ++ δ ∧ ∀ e ∈ δ, e.1 = 400 := by
  induction rows with
  | nil =>
    intro imgs errs out h
    injection h with h2
    subst h2
    exact ⟨[], by simp, by simp⟩
  | cons row rest ih =>
    intro imgs errs out h
    unfold run_cmds at h
    cases hst : execute_cmd imgs row errs with
    | error e =>
      rw [hst] at h
      exact absurd h (by simp)
    | ok st =>
      obtain ⟨i2, e2⟩ := st
      rw [hst] at h
      obtain ⟨δ2, hδ2, hall2⟩ := ih i2 e2 out h
      rcases execute_cmd_effect imgs row errs (i2, e2) hst with ⟨_, m, hm⟩ | hsame
      · simp only at hm
        subst hm
        refine ⟨(400, m) :: δ2, by simpa using hδ2, ?_⟩
        intro e he
        rcases List.mem_cons.mp he with rfl | he2
        · rfl
        · exact hall2 e he2
      · simp only at hsame
        subst hsame
        exact ⟨δ2, hδ2, hall2⟩

/-- C8 (amended): a completed pipeline run always yields a non-empty
status list; it is exactly the single success entry
(200, "Sucessfully processed image") when no operation failed, and
otherwise consists solely of 400 entries (one appended per failed
operation) and contains no code-200 entry. -/
theorem C8_status_completion_amended :
    ∀ (text : String) (img : Img) (thumbs : List Img) (sts : List Status),
    process_image_proc text = .ok (img, thumbs, sts) →
    sts ≠ [] ∧
    (sts = [(200, "Sucessfully processed image")] ∨ ∀ e ∈ sts, e.1 = 400) ∧
    ((∃ m, (200, m) ∈ sts) ↔ sts = [(200, "Sucessfully processed image")]) := by
  intro text img thumbs sts h
  unfold process_image_proc at h
  cases hrun : run_cmds ⟨Img.src, []⟩ [] (cmds_to_list text) with
  | error e =>
    rw [hrun] at h
    exact absurd h (by simp)
  | ok st =>
    obtain ⟨imgs2, errs2⟩ := st
    rw [hrun] at h
    simp only at h
    injection h with h2
    simp only [Prod.mk.injEq] at h2
    obtain ⟨h3, h5, h6⟩ := h2
    obtain ⟨δ, hδ, hall⟩ := run_cmds_errs_extend (cmds_to_list text) ⟨Img.src, []⟩ [] (imgs2, errs2) hrun
    simp only [List.nil_append] at hδ
    subst hδ
    by_cases hlen : errs2.length = 0
    · rw [if_pos hlen] at h6
      have : errs2 = [] := List.length_eq_zero.mp hlen
      subst this
      subst h6
      refine ⟨by simp, Or.inl rfl, ?_⟩
      constructor
      · intro _
        rfl
      · intro _
        exact ⟨"Sucessfully processed image", by simp⟩
    · rw [if_neg hlen] at h6
      subst h6
      refine ⟨fun hh => hlen (by simp [hh]), Or.inr hall, ?_⟩
      constructor
      · rintro ⟨m, hm⟩
        have := hall (200, m) hm
        simp at this
      · intro hh
        have : ((200 : Nat), "Sucessfully processed image") ∈ errs2 := by
          rw [hh]
          simp
        have := hall _ this
        simp at this

/-- C8 counterexample: for the single successful operation `greyscale`
the status list is [(200, "Sucessfully processed image")] — the success
message is misspelled in the code, so it differs from the claimed entry
(200, "successfully processed image"). -/
theorem C8_status_completion_counterexample :
    process_image_proc "greyscale" =
      .ok (Img.grey Img.src, [], [(200, "Sucessfully processed image")]) ∧
    [((200 : Nat), "Sucessfully processed image")] ≠
      [((200 : Nat), "successfully processed image")] := by
  constructor
  · rfl
  · decide

/-- Concrete instantiation of `C8_status_completion_amended` at the
one-row text "greyscale". -/
theorem C8_status_completion_witness :
    ([((200 : Nat), "Sucessfully processed image")] : List Status) ≠ [] ∧
    (([((200 : Nat), "Sucessfully processed image")] : List Status) =
        [(200, "Sucessfully processed image")] ∨
      ∀ e ∈ ([((200 : Nat), "Sucessfully processed image")] : List Status), e.1 = 400) ∧
    ((∃ m, ((200 : Nat), m) ∈ ([((200 : Nat), "Sucessfully processed image")] : List Status)) ↔
      ([((200 : Nat), "Sucessfully processed image")] : List Status) =
        [(200, "Sucessfully processed image")]) :=
  C8_status_completion_amended "greyscale" (Img.grey Img.src) []
    [(200, "Sucessfully processed image")] (by rfl)

/-! ## Chunker lemmas -/

theorem chunksOfAux_congr :
    ∀ (fuel fuel' : Nat) (b : List Nat), b.length ≤ fuel → b.length ≤ fuel' →
    chunksOfAux fuel b = chunksOfAux fuel' b := by
  intro fuel
  induction fuel with
  | zero =>
    intro fuel' b h _
    have : b = [] := List.eq_nil_of_length_eq_zero (Nat.le_zero.mp h)
    subst this
    cases fuel' <;> rfl
  | succ fuel ih =>
    intro fuel' b h h'
    cases b with
    | nil => cases fuel' <;> rfl
    | cons x xs =>
      cases fuel' with
      | zero => simp at h'
      | succ fuel2 =>
        unfold chunksOfAux
        congr 1
        apply ih
        · have hd : ((x :: xs).drop CHUNK_SIZE).length = (x :: xs).length - CHUNK_SIZE := by
            simp
          rw [hd]
          have : CHUNK_SIZE ≥ 1 := by decide
          simp only [List.length_cons] at h ⊢
          omega
        · have hd : ((x :: xs).drop CHUNK_SIZE).length = (x :: xs).length - CHUNK_SIZE := by
            simp
          rw [hd]
          have : CHUNK_SIZE ≥ 1 := by decide
          simp only [List.length_cons] at h' ⊢
          omega

theorem chunksOf_cons_eq (b : List Nat) (hb : b ≠ []) :
    chunksOf b = b.take CHUNK_SIZE :: chunksOf (b.drop CHUNK_SIZE) := by
  cases b with
  | nil => exact absurd rfl hb
  | cons x xs =>
    show chunksOfAux (xs.length + 1) (x :: xs) = _
    unfold chunksOfAux
    congr 1
    apply chunksOfAux_congr
    · have : CHUNK_SIZE ≥ 1 := by decide
      simp
      omega
    · simp

theorem chunksOf_flatten_aux (n : Nat) :
    ∀ b : List Nat, b.length ≤ n → (chunksOf b).flatten = b := by
  induction n with
  | zero =>
    intro b h
    have : b = [] := List.eq_nil_of_length_eq_zero (Nat.le_zero.mp h)
    subst this
    rfl
  | succ n ih =>
    intro b h
    by_cases hb : b = []
    · subst hb
      rfl
    · rw [chunksOf_cons_eq b hb, List.flatten_cons]
      rw [ih (b.drop CHUNK_SIZE) ?_, List.take_append_drop]
      have hC : CHUNK_SIZE ≥ 1 := by decide
      have hlen : 1 ≤ b.length := List.length_pos.mpr hb
      simp only [List.length_drop]
      omega

theorem chunksOf_flatten (b : List Nat) : (chunksOf b).flatten = b :=
  chunksOf_flatten_aux b.length b le_rfl

theorem chunksOf_ne_nil (b : List Nat) (hb : b ≠ []) : chunksOf b ≠ [] := by
  rw [chunksOf_cons_eq b hb]
  simp

theorem chunksOf_mem_ne_nil_aux (n : Nat) :
    ∀ (b : List Nat), b.length ≤ n → ∀ c ∈ chunksOf b, c ≠ [] := by
  induction n with
  | zero =>
    intro b h c hc
    have : b = [] := List.eq_nil_of_length_eq_zero (Nat.le_zero.mp h)
    subst this
    simp [chunksOf, chunksOfAux] at hc
  | succ n ih =>
    intro b h c hc
    by_cases hb : b = []
    · subst hb
      simp [chunksOf, chunksOfAux] at hc
    · rw [chunksOf_cons_eq b hb] at hc
      rcases List.mem_cons.mp hc with rfl | hc2
      · intro hnil
        have hl := congrArg List.length hnil
        simp only [List.length_take, List.length_nil] at hl
        have hC : 1 ≤ CHUNK_SIZE := by decide
        have hlen : 1 ≤ b.length := List.length_pos.mpr hb
        omega
      · refine ih (b.drop CHUNK_SIZE) ?_ c hc2
        have hC : CHUNK_SIZE ≥ 1 := by decide
        have hlen : 1 ≤ b.length := List.length_pos.mpr hb
        simp only [List.length_drop]
        omega

theorem chunksOf_mem_ne_nil (b : List Nat) : ∀ c ∈ chunksOf b, c ≠ [] :=
  chunksOf_mem_ne_nil_aux b.length b le_rfl

/-! ## C3: multiplexer frame sequence -/

/-- A data frame as the sender constructs it. -/
def data_frame (type : String) (chunk : List Nat) (name : String) (k : Nat)
    (err : String) : Frame :=
  { image_type := type, img_chunk_data := chunk, filename := name,
    file_num := k, errors := err }

/-- A control frame: empty payload, sentinel name. -/
def control_frame (k : Nat) (err : String) : Frame :=
  { image_type := "", img_chunk_data := [], filename := NEW_FILE_INCOMING,
    file_num := k, errors := err }

def spec_data_frames (type err : String) (a : Artifact) (i : Nat) : List Frame :=
  (chunksOf a.data).map (fun chunk => data_frame type chunk a.name i err)

def spec_secondary_frames (type err : String) : Nat → List Artifact → List Frame
  | _, [] => []
  | i, t :: rest =>
    spec_data_frames type err t i ++
      (match rest with
       | [] => []
       | _ :: _ => control_frame (i + 1) err :: spec_secondary_frames type err (i + 1) rest)

def src_secondary_frames (type err : String) (ts : List Artifact) (k : Nat) : List Frame :=
  ((List.range ts.length).map (fun i =>
    ((chunksOf (ts.getD i ⟨"", []⟩).data).map (fun chunk =>
      data_frame type chunk (ts.getD i ⟨"", []⟩).name (k + i) err))
    ++ (if i < ts.length - 1 then [control_frame (k + i + 1) err] else []))).flatten

theorem src_secondary_cons (type err : String) (t : Artifact) (ts : List Artifact) (k : Nat) :
    src_secondary_frames type err (t :: ts) k =
      ((chunksOf t.data).map (fun chunk => data_frame type chunk t.name k err))
      ++ ((if 0 < ts.length then [control_frame (k + 1) err] else [])
      ++ src_secondary_frames type err ts (k + 1)) := by
  unfold src_secondary_frames
  rw [List.length_cons, List.range_succ_eq_map, List.map_cons, List.map_map,
    List.flatten_cons, List.append_assoc]
  congr 1
  congr 1
  congr 1
  apply List.map_congr_left
  intro i hi
  simp only [Function.comp_apply, Nat.succ_eq_add_one, List.getD_cons_succ,
    List.length_cons, Nat.add_sub_cancel]
  congr 1
  · have h2 : k + (i + 1) = k + 1 + i := by omega
    rw [h2]
  · have h2 : k + (i + 1) + 1 = k + 1 + i + 1 := by omega
    rw [h2]
    have hc : (i + 1 < ts.length) ↔ (i < ts.length - 1) := by omega
    exact if_congr hc rfl rfl

def transmit_frames_claim (img : Artifact) (thumbnails : List Artifact)
    (errs : List Status) (type : String) : List Frame :=
  spec_data_frames type (error_string errs) img 0 ++
    (control_frame 0 (error_string errs) ::
      spec_secondary_frames type (error_string errs) 0 thumbnails)

theorem src_secondary_eq_spec (type err : String) :
    ∀ (ts : List Artifact) (k : Nat),
    src_secondary_frames type err ts k = spec_secondary_frames type err k ts := by
  intro ts
  induction ts with
  | nil => intro k; rfl
  | cons t ts ih =>
    intro k
    rw [src_secondary_cons, ih (k + 1)]
    cases ts with
    | nil => simp [spec_secondary_frames, spec_data_frames]
    | cons t2 ts2 =>
      simp only [spec_secondary_frames, spec_data_frames, List.length_cons]
      rw [if_pos (by omega : 0 < ts2.length + 1)]
      simp

theorem transmit_secondary_eq (type err : String) (ts : List Artifact) :
    ((List.range ts.length).map (fun i =>
      ((chunksOf (ts.getD i ⟨"", []⟩).data).map (fun chunk =>
        { image_type := type, img_chunk_data := chunk,
          filename := (ts.getD i ⟨"", []⟩).name, file_num := i, errors := err }))
      ++ (if i < ts.length - 1 then
            [{ image_type := "", img_chunk_data := [], filename := NEW_FILE_INCOMING,
               file_num := i + 1, errors := err }]
          else []))).flatten
    = src_secondary_frames type err ts 0 := by
  unfold src_secondary_frames
  congr 1
  apply List.map_congr_left
  intro i hi
  simp [data_frame, control_frame]

theorem transmit_img_eq_claim (img : Artifact) (thumbs : List Artifact)
    (errs : List Status) (type : String) :
    transmit_img img thumbs errs type = transmit_frames_claim img thumbs errs type := by
  unfold transmit_img transmit_frames_claim
  rw [List.append_assoc]
  congr 1
  rw [List.singleton_append]
  refine congrArg₂ List.cons rfl ?_
  cases thumbs with
  | nil => simp [spec_secondary_frames]
  | cons t ts =>
    rw [if_pos (by simp), transmit_secondary_eq, src_secondary_eq_spec]

theorem spec_secondary_errors (type err : String) :
    ∀ (ts : List Artifact) (k : Nat) (f : Frame),
    f ∈ spec_secondary_frames type err k ts → f.errors = err := by
  intro ts
  induction ts with
  | nil =>
    intro k f h
    simp [spec_secondary_frames] at h
  | cons t rest ih =>
    intro k f h
    cases rest with
    | nil =>
      simp only [spec_secondary_frames, List.append_nil] at h
      obtain ⟨c, _, rfl⟩ := List.mem_map.mp h
      rfl
    | cons r2 rs =>
      simp only [spec_secondary_frames] at h
      rcases List.mem_append.mp h with h1 | h2
      · obtain ⟨c, _, rfl⟩ := List.mem_map.mp h1
        rfl
      · rcases List.mem_cons.mp h2 with rfl | h3
        · rfl
        · exact ih (k + 1) f h3

/-- C3: Multiplexer frame sequence.  The sender's frame stream is
exactly: one data frame per primary chunk at slot 0, then one control
frame (sentinel name, empty payload, slot 0) emitted unconditionally,
then per secondary artifact i its data frames at slot i followed by a
control frame at slot i+1 only when i is not the last secondary; and
every emitted frame carries the same serialized status text. -/
theorem C3_multiplexer_frame_sequence :
    (∀ (img : Artifact) (thumbs : List Artifact) (errs : List Status) (type : String),
      transmit_img img thumbs errs type = transmit_frames_claim img thumbs errs type) ∧
    (∀ (img : Artifact) (thumbs : List Artifact) (errs : List Status) (type : String)
        (f : Frame), f ∈ transmit_img img thumbs errs type →
      f.errors = error_string errs) := by
  refine ⟨transmit_img_eq_claim, ?_⟩
  intro img thumbs errs type f hf
  rw [transmit_img_eq_claim] at hf
  unfold transmit_frames_claim at hf
  rcases List.mem_append.mp hf with h1 | h2
  · unfold spec_data_frames at h1
    obtain ⟨c, _, rfl⟩ := List.mem_map.mp h1
    rfl
  · rcases List.mem_cons.mp h2 with rfl | h3
    · rfl
    · exact spec_secondary_errors type (error_string errs) thumbs 0 f h3

/-- Concrete instantiation of `C3_multiplexer_frame_sequence`: the first
data frame of a tiny transmission carries the serialized status text. -/
theorem C3_multiplexer_frame_sequence_witness :
    (data_frame "png" [1] "p" 0 "").errors = error_string [] :=
  C3_multiplexer_frame_sequence.2 ⟨"p", [1]⟩ [⟨"t", [2]⟩] [] "png"
    (data_frame "png" [1] "p" 0 "") (by decide)

/-! ## Demultiplexer lemmas (C1, C4) -/

theorem demux_loop_append (s : RecvState) (xs ys : List Frame) :
    demux_loop s (xs ++ ys) =
      match demux_loop s xs with
      | .ok s2 => demux_loop s2 ys
      | .error e => .error e := by
  induction xs generalizing s with
  | nil => rfl
  | cons f fs ih =>
    simp only [List.cons_append, demux_loop]
    cases demux_step s f with
    | ok s2 => exact ih s2
    | error e => rfl

theorem demux_step_control (s : RecvState) (k : Nat) (err : String) :
    demux_step s (control_frame k err) = .ok
      { encountered_thumbnail := true, new_img := s.new_img,
        new_img_name := s.new_img_name,
        new_thumbnail := s.new_thumbnail ++ [[]],
        new_thumbnail_name := s.new_thumbnail_name ++ [""],
        error_msg := err, file_num := k } := by
  obtain ⟨enc, ni, nn, nt, ntn, em, fn⟩ := s
  cases enc with
  | false => simp [demux_step, control_frame]
  | true => simp [demux_step, control_frame]

theorem demux_primary_chunks (type nm err : String) (chunks : List (List Nat)) :
    ∀ (ni : List Nat) (nn : String) (nt : List (List Nat)) (ntn : List String)
      (em : String) (fn : Nat),
    nm ≠ NEW_FILE_INCOMING → chunks ≠ [] →
    demux_loop ⟨false, ni, nn, nt, ntn, em, fn⟩
        (chunks.map (fun c => data_frame type c nm 0 err)) =
      .ok ⟨false, ni ++ chunks.flatten, nm, nt, ntn, err, 0⟩ := by
  induction chunks with
  | nil =>
    intro ni nn nt ntn em fn _ hne
    exact absurd rfl hne
  | cons c rest ih =>
    intro ni nn nt ntn em fn hnm _
    simp only [List.map_cons, demux_loop]
    have hstep : demux_step ⟨false, ni, nn, nt, ntn, em, fn⟩ (data_frame type c nm 0 err) =
        .ok ⟨false, ni ++ c, nm, nt, ntn, err, 0⟩ := by
      unfold demux_step data_frame
      rw [if_neg (fun hand => hnm hand.1), if_neg hnm, if_pos rfl]
    simp only [hstep]
    cases rest with
    | nil => simp [demux_loop]
    | cons c2 cs =>
      rw [ih (ni ++ c) nm nt ntn err 0 hnm (by simp)]
      simp

theorem set_append_last {α : Type} : ∀ (l : List α) (x v : α),
    (l ++ [x]).set l.length v = l ++ [v] := by
  intro l
  induction l with
  | nil => intro x v; rfl
  | cons a as ih =>
    intro x v
    simp only [List.cons_append, List.length_cons, List.set_cons_succ]
    rw [ih]

theorem getD_append_last {α : Type} : ∀ (l : List α) (x : α) (d : α),
    (l ++ [x]).getD l.length d = x := by
  intro l
  induction l with
  | nil => intro x d; rfl
  | cons a as ih =>
    intro x d
    simp only [List.cons_append, List.length_cons, List.getD_cons_succ]
    exact ih x d

theorem demux_secondary_chunks (type nm err : String) (chunks : List (List Nat)) :
    ∀ (done : List (List Nat)) (ndone : List String) (acc : List Nat) (nacc : String)
      (ni : List Nat) (nn em : String) (fn : Nat),
    ndone.length = done.length → nm ≠ NEW_FILE_INCOMING → chunks ≠ [] →
    demux_loop ⟨true, ni, nn, done ++ [acc], ndone ++ [nacc], em, fn⟩
        (chunks.map (fun c => data_frame type c nm done.length err)) =
      .ok ⟨true, ni, nn, done ++ [acc ++ chunks.flatten], ndone ++ [nm], err, done.length⟩ := by
  induction chunks with
  | nil =>
    intro done ndone acc nacc ni nn em fn _ _ hne
    exact absurd rfl hne
  | cons c rest ih =>
    intro done ndone acc nacc ni nn em fn hlen hnm _
    simp only [List.map_cons, demux_loop]
    have hstep : demux_step ⟨true, ni, nn, done ++ [acc], ndone ++ [nacc], em, fn⟩
        (data_frame type c nm done.length err) =
        .ok ⟨true, ni, nn, done ++ [acc ++ c], ndone ++ [nm], err, done.length⟩ := by
      unfold demux_step data_frame
      rw [if_neg (fun hand => hnm hand.1), if_neg hnm,
        if_neg (by simp : ¬(true = false)),
        if_pos ⟨by simp [hlen], by simp⟩]
      have h1 : (ndone ++ [nacc]).set done.length nm = ndone ++ [nm] := by
        rw [← hlen, set_append_last]
      have h2 : (done ++ [acc]).set done.length
          ((done ++ [acc]).getD done.length [] ++ c) = done ++ [acc ++ c] := by
        rw [getD_append_last, set_append_last]
      rw [h1, h2]
    simp only [hstep]
    cases rest with
    | nil => simp [demux_loop]
    | cons c2 cs =>
      rw [ih done ndone (acc ++ c) nm ni nn err done.length hlen hnm (by simp)]
      simp

theorem spec_secondary_frames_cons2 (type err : String) (k : Nat) (t t2 : Artifact)
    (ts2 : List Artifact) :
    spec_secondary_frames type err k (t :: t2 :: ts2) =
      spec_data_frames type err t k ++
        (control_frame (k + 1) err :: spec_secondary_frames type err (k + 1) (t2 :: ts2)) :=
  rfl

theorem demux_secondary_section (type err : String) :
    ∀ (ts : List Artifact) (done : List (List Nat)) (ndone : List String)
      (ni : List Nat) (nn em : String) (fn : Nat),
    ts ≠ [] → ndone.length = done.length →
    (∀ t ∈ ts, t.data ≠ [] ∧ t.name ≠ NEW_FILE_INCOMING) →
    demux_loop ⟨true, ni, nn, done ++ [[]], ndone ++ [""], em, fn⟩
        (spec_secondary_frames type err done.length ts) =
      .ok ⟨true, ni, nn, done ++ ts.map (fun t => t.data),
           ndone ++ ts.map (fun t => t.name), err, done.length + (ts.length - 1)⟩ := by
  intro ts
  induction ts with
  | nil =>
    intro done ndone ni nn em fn hne
    exact absurd rfl hne
  | cons t rest ih =>
    intro done ndone ni nn em fn _ hlen hall
    obtain ⟨hdata, hname⟩ := hall t (by simp)
    cases rest with
    | nil =>
      simp only [spec_secondary_frames, spec_data_frames, List.append_nil]
      rw [demux_secondary_chunks type t.name err (chunksOf t.data) done ndone [] ""
        ni nn em fn hlen hname (chunksOf_ne_nil _ hdata)]
      rw [chunksOf_flatten]
      simp
    | cons t2 ts2 =>
      rw [spec_secondary_frames_cons2]
      simp only [spec_data_frames]
      rw [demux_loop_append]
      rw [demux_secondary_chunks type t.name err (chunksOf t.data) done ndone [] ""
        ni nn em fn hlen hname (chunksOf_ne_nil _ hdata)]
      rw [chunksOf_flatten]
      simp only [List.nil_append, demux_loop]
      rw [demux_step_control]
      simp only []
      have hrec := ih (done ++ [t.data]) (ndone ++ [t.name]) ni nn err (done.length + 1)
        (by simp) (by simp [hlen]) (fun x hx => hall x (by simp [hx]))
      simp only [List.length_append, List.length_cons, List.length_nil,
        Nat.zero_add] at hrec
      rw [hrec]
      simp only [List.append_assoc, List.map_cons, List.length_cons]
      congr 2
      omega

theorem demux_transmit_round_trip (img : Artifact) (thumbs : List Artifact)
    (errs : List Status) (type : String)
    (himg : img.data ≠ []) (hname : img.name ≠ NEW_FILE_INCOMING)
    (hall : ∀ t ∈ thumbs, t.data ≠ [] ∧ t.name ≠ NEW_FILE_INCOMING) :
    demux_loop initRecvState (transmit_img img thumbs errs type) =
      .ok ⟨true, img.data, img.name,
           (if thumbs = [] then [[]] else thumbs.map (fun t => t.data)),
           (if thumbs = [] then [""] else thumbs.map (fun t => t.name)),
           error_string errs,
           (if thumbs = [] then 0 else thumbs.length - 1)⟩ := by
  rw [transmit_img_eq_claim]
  unfold transmit_frames_claim
  rw [demux_loop_append]
  simp only [spec_data_frames]
  have hinit : initRecvState = (⟨false, [], "", [], [], "", 0⟩ : RecvState) := rfl
  rw [hinit]
  rw [demux_primary_chunks type img.name (error_string errs) (chunksOf img.data)
    [] "" [] [] "" 0 hname (chunksOf_ne_nil _ himg)]
  rw [chunksOf_flatten]
  simp only [List.nil_append, demux_loop]
  rw [demux_step_control]
  simp only []
  cases thumbs with
  | nil =>
    simp [spec_secondary_frames, demux_loop]
  | cons t ts =>
    simp only [List.nil_append]
    have hsec := demux_secondary_section type (error_string errs) (t :: ts)
      [] [] img.data img.name (error_string errs) 0 (by simp) rfl hall
    simp only [List.length_nil, List.nil_append] at hsec
    rw [hsec]
    simp only [List.map_cons, List.length_cons]
    rw [if_neg (by simp), if_neg (by simp), if_neg (by simp)]
    congr 2
    omega

/-- C1 (amended): feeding the sender's exact frame sequence into the
receiver loop reconstructs the primary buffer byte-for-byte and every
secondary buffer byte-for-byte in order with its asset name, provided
every artifact's byte buffer is non-empty and no asset name equals the
control sentinel.  (An empty buffer produces zero data frames, so its
asset name is never transported — see the counterexample; with zero
secondaries the first control frame still allocates one empty phantom
slot.) -/
theorem C1_round_trip_amended (img : Artifact) (thumbs : List Artifact)
    (errs : List Status) (type : String)
    (himg : img.data ≠ []) (hname : img.name ≠ NEW_FILE_INCOMING)
    (hall : ∀ t ∈ thumbs, t.data ≠ [] ∧ t.name ≠ NEW_FILE_INCOMING) :
    demux_loop initRecvState (transmit_img img thumbs errs type) =
      .ok ⟨true, img.data, img.name,
           (if thumbs = [] then [[]] else thumbs.map (fun t => t.data)),
           (if thumbs = [] then [""] else thumbs.map (fun t => t.name)),
           error_string errs,
           (if thumbs = [] then 0 else thumbs.length - 1)⟩ :=
  demux_transmit_round_trip img thumbs errs type himg hname hall

/-- C1 counterexample: an empty primary buffer round-trips its bytes but
not its asset name — the reconstructed primary name is the initial empty
string, not "p", so the claim's "preserving asset names" fails for empty
buffers. -/
theorem C1_round_trip_counterexample :
    demux_loop initRecvState (transmit_img ⟨"p", []⟩ [] [] "png") =
      .ok ⟨true, [], "", [[]], [""], "", 0⟩ ∧ ("" : String) ≠ "p" := by
  exact ⟨rfl, by decide⟩

/-- Concrete instantiation of `C1_round_trip_amended`: a one-chunk
primary and one one-chunk secondary round-trip exactly. -/
theorem C1_round_trip_witness :
    demux_loop initRecvState (transmit_img ⟨"p", [1]⟩ [⟨"t", [2]⟩] [] "png") =
      .ok ⟨true, [1], "p", [[2]], ["t"], "", 0⟩ := by
  have h := C1_round_trip_amended ⟨"p", [1]⟩ [⟨"t", [2]⟩] [] "png"
    (by decide) (by decide) (by decide)
  rw [h]
  rfl

/-- C4 (amended): demultiplexing one or more primary data frames
followed by exactly one control frame and end-of-stream yields a
non-empty primary buffer equal to the concatenated chunks, and a
secondary list containing exactly one allocated empty slot — not an
empty secondary list as claimed (the control frame opens slot 0 even
when no secondary data follows). -/
theorem C4_zero_secondary_demux_amended (nm type err : String)
    (chunks : List (List Nat)) (k : Nat)
    (hnm : nm ≠ NEW_FILE_INCOMING) (hne : chunks ≠ [])
    (hcs : ∀ c ∈ chunks, c ≠ []) :
    demux_loop initRecvState
        (chunks.map (fun c => data_frame type c nm 0 err) ++ [control_frame k err]) =
      .ok ⟨true, chunks.flatten, nm, [[]], [""], err, k⟩ ∧
      chunks.flatten ≠ [] := by
  constructor
  · rw [demux_loop_append]
    rw [show initRecvState = (⟨false, [], "", [], [], "", 0⟩ : RecvState) from rfl]
    rw [demux_primary_chunks type nm err chunks [] "" [] [] "" 0 hnm hne]
    simp only [List.nil_append, demux_loop]
    rw [demux_step_control]
    rfl
  · cases chunks with
    | nil => exact absurd rfl hne
    | cons c cs =>
      intro h
      rw [List.flatten_cons] at h
      exact hcs c (by simp) (List.append_eq_nil.mp h).1

/-- C4 counterexample: one data frame then one control frame — the
demultiplexer's secondary list is [[]] (one phantom empty slot), not []
as the claim states. -/
theorem C4_zero_secondary_demux_counterexample :
    demux_loop initRecvState [data_frame "png" [1] "p" 0 "e", control_frame 0 "e"] =
      .ok ⟨true, [1], "p", [[]], [""], "e", 0⟩ ∧
    ([[]] : List (List Nat)) ≠ [] := by
  exact ⟨rfl, by decide⟩

/-- Concrete instantiation of `C4_zero_secondary_demux_amended`. -/
theorem C4_zero_secondary_demux_witness :
    demux_loop initRecvState
        ([[1]].map (fun c => data_frame "png" c "p" 0 "e") ++ [control_frame 0 "e"]) =
      .ok ⟨true, ([[1]] : List (List Nat)).flatten, "p", [[]], [""], "e", 0⟩ ∧
      ([[1]] : List (List Nat)).flatten ≠ [] :=
  C4_zero_secondary_demux_amended "p" "png" "e" [[1]] 0 (by decide) (by decide) (by decide)

/-! ## C9: top-level failure atomicity -/

/-- C9: Top-level failure atomicity.  A missing source file, a transport
failure, and a framing anomaly (slot index never opened, which raises
the receiver's IndexError) each yield the explicit failure shape: both
image and thumbnail set to the None indicator with a failure string; a
successful demultiplex — whatever per-operation 400 statuses its status
text carries — always yields the success shape with non-None image and
thumbnail fields, and the two shapes can never coincide. -/
theorem C9_top_level_failure_atomicity :
    (∀ (transport : Option (List Frame)),
      client_process_image true false transport =
        { img := none, thumbnail := none,
          responses := .failure "404, file does not exist" }) ∧
    (client_process_image true true none =
      { img := none, thumbnail := none,
        responses := .failure "500, Unable to connect to server" }) ∧
    (∀ (frames : List Frame) (e : PyErr),
      demux_loop initRecvState frames = .error e →
      client_process_image true true (some frames) =
        { img := none, thumbnail := none,
          responses := .failure "500, Unable to connect to server" }) ∧
    (∀ (s : RecvState) (f : Frame), s.encountered_thumbnail = true →
      f.filename ≠ NEW_FILE_INCOMING → s.new_thumbnail_name.length ≤ f.file_num →
      demux_step s f = .error .indexError) ∧
    (∀ (frames : List Frame) (s : RecvState),
      demux_loop initRecvState frames = .ok s →
      client_process_image true true (some frames) =
        { img := some ("client_" ++ s.new_img_name),
          thumbnail := some (s.new_thumbnail_name.map (fun n => "client_" ++ n)),
          responses := .ok_list (convert_to_list s.error_msg) }) ∧
    (∀ (r1 r2 : Response) (x : String), r1.img = none → r2.img = some x → r1 ≠ r2) := by
  refine ⟨fun _ => rfl, rfl, ?_, ?_, ?_, ?_⟩
  · intro frames e h
    simp [client_process_image, h]
  · intro s f henc hname hlen
    unfold demux_step
    rw [if_neg (fun hand => hname hand.1), if_neg hname,
      if_neg (by simp [henc]),
      if_neg (fun hand => absurd (hand.1 : f.file_num < s.new_thumbnail_name.length)
        (by omega))]
  · intro frames s h
    simp [client_process_image, h]
  · intro r1 r2 x h1 h2 he
    rw [he, h2] at h1
    exact Option.noConfusion h1

/-- Concrete instantiation of `C9_top_level_failure_atomicity`: a data
frame addressing secondary slot 5 that no control frame opened makes the
whole call fail with the 500 failure shape. -/
theorem C9_top_level_failure_atomicity_witness :
    client_process_image true true
        (some [control_frame 0 "e", data_frame "png" [9] "x" 5 "e"]) =
      { img := none, thumbnail := none,
        responses := .failure "500, Unable to connect to server" } :=
  C9_top_level_failure_atomicity.2.2.1
    [control_frame 0 "e", data_frame "png" [9] "x" 5 "e"] .indexError (by rfl)

/-! ## C10: status text round-trip -/

theorem digitChar_ne_newline (n : Nat) : Nat.digitChar n ≠ '\n' := by
  by_cases h : n < 16
  · interval_cases n <;> decide
  · push_neg at h
    have h2 : Nat.digitChar n = (Char.ofNat 42) := by
      simp only [Nat.digitChar]
      repeat rw [if_neg (by omega)]
    rw [h2]
    decide

theorem toDigitsCore_no_newline (b : Nat) :
    ∀ (fuel n : Nat) (acc : List Char), (∀ c ∈ acc, c ≠ '\n') →
    ∀ c ∈ Nat.toDigitsCore b fuel n acc, c ≠ '\n' := by
  intro fuel
  induction fuel with
  | zero =>
    intro n acc hacc c hc
    exact hacc c hc
  | succ fuel ih =>
    intro n acc hacc c hc
    have hc2 : c ∈ (if n / b = 0 then Nat.digitChar (n % b) :: acc
        else Nat.toDigitsCore b fuel (n / b) (Nat.digitChar (n % b) :: acc)) := hc
    clear hc
    rename' hc2 => hc
    split at hc
    · rcases List.mem_cons.mp hc with rfl | h2
      · exact digitChar_ne_newline _
      · exact hacc c h2
    · refine ih (n / b) (Nat.digitChar (n % b) :: acc) ?_ c hc
      intro x hx
      rcases List.mem_cons.mp hx with rfl | h2
      · exact digitChar_ne_newline _
      · exact hacc x h2

theorem repr_no_newline (n : Nat) : ∀ c ∈ (Nat.repr n).data, c ≠ '\n' := by
  intro c hc
  have : (Nat.repr n).data = Nat.toDigits 10 n := rfl
  rw [this] at hc
  exact toDigitsCore_no_newline 10 (n + 1) n [] (by simp) c hc

theorem error_string_data_aux (L : List Status) :
    ∀ (acc : String),
    (L.foldl (fun error_msg err =>
      error_msg ++ Nat.repr err.1 ++ ", " ++ err.2 ++ "\n") acc).data =
      acc.data ++
        (L.map (fun e => (Nat.repr e.1).data ++ ',' :: ' ' :: e.2.data ++ ['\n'])).flatten := by
  induction L with
  | nil =>
    intro acc
    simp
  | cons e es ih =>
    intro acc
    simp only [List.foldl_cons, List.map_cons, List.flatten_cons]
    rw [ih]
    simp [String.data_append, List.append_assoc]

theorem error_string_data (L : List Status) :
    (error_string L).data =
      (L.map (fun e => (Nat.repr e.1).data ++ ',' :: ' ' :: e.2.data ++ ['\n'])).flatten := by
  unfold error_string
  rw [error_string_data_aux]
  rfl

theorem split_nl_append (xs : List Char) (hx : ∀ c ∈ xs, c ≠ '\n') (rest : List Char) :
    split_nl (xs ++ '\n' :: rest) = xs :: split_nl rest := by
  induction xs with
  | nil =>
    simp only [List.nil_append, split_nl, split_pred]
    rw [if_pos (by decide)]
  | cons c cs ih =>
    have hc : c ≠ '\n' := hx c (by simp)
    simp only [List.cons_append, split_nl, split_pred, List.append_eq]
    rw [if_neg (by simp [hc])]
    have ih2 := ih (fun x hxm => hx x (by simp [hxm]))
    simp only [split_nl] at ih2
    rw [ih2]

theorem split_nl_entries :
    ∀ (L : List Status), (∀ e ∈ L, ∀ c ∈ e.2.data, c ≠ '\n') →
    split_nl ((L.map (fun e =>
        (Nat.repr e.1).data ++ ',' :: ' ' :: e.2.data ++ ['\n'])).flatten) =
      (L.map (fun e => (Nat.repr e.1).data ++ ',' :: ' ' :: e.2.data)) ++ [[]] := by
  intro L
  induction L with
  | nil =>
    intro _
    rfl
  | cons e es ih =>
    intro hL
    simp only [List.map_cons, List.flatten_cons]
    have hbody : ∀ c ∈ (Nat.repr e.1).data ++ ',' :: ' ' :: e.2.data, c ≠ '\n' := by
      intro c hc
      rcases List.mem_append.mp hc with h1 | h2
      · exact repr_no_newline e.1 c h1
      · rcases List.mem_cons.mp h2 with rfl | h3
        · decide
        · rcases List.mem_cons.mp h3 with rfl | h4
          · decide
          · exact hL e (by simp) c h4
    have hassoc : ((Nat.repr e.1).data ++ ',' :: ' ' :: e.2.data ++ ['\n']) ++
        (es.map (fun e => (Nat.repr e.1).data ++ ',' :: ' ' :: e.2.data ++ ['\n'])).flatten =
        ((Nat.repr e.1).data ++ ',' :: ' ' :: e.2.data) ++ ('\n' ::
          (es.map (fun e => (Nat.repr e.1).data ++ ',' :: ' ' :: e.2.data ++ ['\n'])).flatten) := by
      simp [List.append_assoc]
    rw [hassoc, split_nl_append _ hbody, ih (fun x hx => hL x (by simp [hx])),
      List.cons_append]

/-- C10: Status text round-trip.  Serializing any status list whose
messages contain no newline with the sender's `error_string` and parsing
with the receiver's `convert_to_list` yields exactly one string
"<code>, <message>" per entry, in order; the empty list round-trips to
the empty list. -/
theorem C10_status_text_round_trip :
    ∀ (L : List Status), (∀ e ∈ L, ∀ c ∈ e.2.data, c ≠ '\n') →
    convert_to_list (error_string L) =
      L.map (fun e => Nat.repr e.1 ++ ", " ++ e.2) := by
  intro L hL
  cases L with
  | nil => rfl
  | cons e es =>
    unfold convert_to_list
    have hdata := error_string_data (e :: es)
    have hsplit := split_nl_entries (e :: es) hL
    have hnonempty : error_string (e :: es) ≠ "" := by
      intro hs
      have h0 : (error_string (e :: es)).data = [] := by rw [hs]
      rw [hdata] at h0
      simp at h0
    rw [if_neg hnonempty, hdata, hsplit]
    have hmapmk : (((e :: es).map (fun st : Status => (Nat.repr st.1).data ++ ',' :: ' ' :: st.2.data))
          ++ [[]]).map (fun l => String.mk l) =
        ((e :: es).map (fun st : Status => Nat.repr st.1 ++ ", " ++ st.2)) ++ [""] := by
      rw [List.map_append, List.map_map]
      congr 1
      apply List.map_congr_left
      intro x _
      apply String.ext
      show x.1.repr.data ++ ',' :: ' ' :: x.2.data = (Nat.repr x.1 ++ ", " ++ x.2).data
      rw [String.data_append, String.data_append, List.append_assoc]
      rfl
    rw [hmapmk]
    simp only [List.getLast?_concat, List.dropLast_concat]
    simp

/-- Concrete instantiation of `C10_status_text_round_trip`. -/
theorem C10_status_text_round_trip_witness :
    convert_to_list (error_string [(200, "ok")]) = ["200, ok"] :=
  (C10_status_text_round_trip [(200, "ok")] (by decide)).trans (by rfl)
